import Mathlib

/-!
# Spring engine: material bins and team colours

A shallow embedding of `rts/Lua/LuaMaterial.h` (material descriptors, bins,
the bin ordering and the handler that interns bins) and of
`rts/Sim/Misc/TeamBase.h` (`SetDefaultColor`).

Conventions.
* `int`, `GLint` and enumerations are `Int`; `GLuint`, `GLenum` and
  `unsigned char` are `Nat` (no arithmetic is done on them here).
* `CSolidObject*` and `LuaMatBin*` are addresses, modelled as `Nat`.
* Functions whose bodies live in `LuaMaterial.cpp` are modelled from the
  specification and say so in their doc comment.
-/

namespace Spring

/-! ## Comparison helpers -/

/-- Three-way comparison of two integers, the idiom
`if (x != y) return (x < y) ? -1 : +1;` followed by falling through with 0. -/
def cmpInt (x y : Int) : Int :=
  if x ≠ y then (if x < y then -1 else 1) else 0

/-- First non-zero entry of a list of comparison results, 0 when all are 0:
a chain of `cmp = ...; if (cmp != 0) return cmp;` steps in priority order. -/
def firstNonZero : List Int → Int
  | [] => 0
  | c :: rest => if c ≠ 0 then c else firstNonZero rest

/-! ## LuaMatShader -/

/-- The enumeration `LuaMatShader::Type`. -/
inductive LuaMatShaderType where
  | LUASHADER_NONE
  | LUASHADER_GL
  | LUASHADER_3DO
  | LUASHADER_S3O
  deriving DecidableEq, Repr

/-- The enumerator values `LUASHADER_NONE = 0`, ..., `LUASHADER_S3O = 3`. -/
def LuaMatShaderType.toInt : LuaMatShaderType → Int
  | .LUASHADER_NONE => 0
  | .LUASHADER_GL => 1
  | .LUASHADER_3DO => 2
  | .LUASHADER_S3O => 3

/-- The class `LuaMatShader`: a shader kind and an OpenGL program id. -/
structure LuaMatShader where
  type : LuaMatShaderType
  openglID : Nat
  deriving DecidableEq, Repr

/-- The constructor `LuaMatShader() : type(LUASHADER_NONE), openglID(0)`. -/
def LuaMatShader.new : LuaMatShader :=
  { type := .LUASHADER_NONE, openglID := 0 }

/-- Modelled from the spec: the body of `LuaMatShader::Compare` is in
`LuaMaterial.cpp`, which is not part of the sources. The specification gives
it as "lexicographic on `(kind, programHandle)`". -/
def LuaMatShader.Compare (a b : LuaMatShader) : Int :=
  firstNonZero [cmpInt a.type.toInt b.type.toInt, cmpInt a.openglID b.openglID]

/-- The member `LuaMatShader::operator<`: `Compare(*this, mt) < 0`. -/
def LuaMatShader.op_lt (self mt : LuaMatShader) : Bool :=
  decide (LuaMatShader.Compare self mt < 0)

/-- The member `LuaMatShader::operator==`: `Compare(*this, mt) == 0`. -/
def LuaMatShader.op_eq (self mt : LuaMatShader) : Bool :=
  decide (LuaMatShader.Compare self mt = 0)

/-- The member `LuaMatShader::operator!=`: `Compare(*this, mt) != 0`. -/
def LuaMatShader.op_ne (self mt : LuaMatShader) : Bool :=
  decide (LuaMatShader.Compare self mt ≠ 0)

/-! ## LuaMatTexture -/

/-- Modelled from the spec: `LuaMatTexture` is declared in `LuaOpenGLUtils.h`,
which is not part of the sources. The specification describes a texture entry
as `{slot, textureHandle, targetKind}`. -/
structure LuaMatTexture where
  slot : Int
  textureHandle : Nat
  targetKind : Nat
  deriving DecidableEq, Repr, Inhabited

/-- Modelled from the spec: `LuaMatTexture::Compare` is not part of the
sources. The specification compares entries "by
`(slot, textureHandle, targetKind)`". -/
def LuaMatTexture.Compare (a b : LuaMatTexture) : Int :=
  firstNonZero
    [cmpInt a.slot b.slot, cmpInt a.textureHandle b.textureHandle,
     cmpInt a.targetKind b.targetKind]

/-- The constant `LuaMatTexture::maxTexUnits` (16, as `LuaMatTexSet::maxTexUnits`). -/
def maxTexUnits : Nat := 16

/-! ## LuaMaterial -/

/-- The class `LuaMaterial`. `type` is a `LuaMatType`, kept as the integer
value of the enumeration because the constructor stores `LuaMatType(-1)`. -/
structure LuaMaterial where
  type : Int
  order : Int
  standardShader : LuaMatShader
  deferredShader : LuaMatShader
  texCount : Int
  textures : Fin maxTexUnits → LuaMatTexture
  preList : Nat
  postList : Nat
  useCamera : Bool
  culling : Nat
  cameraLoc : Int
  cameraInvLoc : Int
  cameraPosLoc : Int
  sunPosLoc : Int
  shadowLoc : Int
  shadowParamsLoc : Int

/-- The default constructor `LuaMaterial()`; the texture array and the two
shaders are default-constructed. -/
def LuaMaterial.new : LuaMaterial :=
  { type := -1  -- invalid
    order := 0
    standardShader := LuaMatShader.new
    deferredShader := LuaMatShader.new
    texCount := 0
    textures := fun _ => default
    preList := 0
    postList := 0
    useCamera := true
    culling := 0
    cameraLoc := -1
    cameraInvLoc := -1
    cameraPosLoc := -1
    sunPosLoc := -1
    shadowLoc := -1
    shadowParamsLoc := -1 }

/-- The read `m.textures[t]`; an index outside the array (a precondition
violation, texture count above capacity) reads a default entry. -/
def LuaMaterial.texAt (m : LuaMaterial) (t : Nat) : LuaMatTexture :=
  if h : t < maxTexUnits then m.textures ⟨t, h⟩ else default

/-- Modelled from the spec: the texture part of `LuaMaterial::Compare`, whose
body is not part of the sources. The specification "compares `count` first,
then entries pairwise" over `entries[0..count)`. -/
def LuaMaterial.CompareTextures (a b : LuaMaterial) : Int :=
  if a.texCount ≠ b.texCount then (if a.texCount < b.texCount then -1 else 1)
  else firstNonZero
    ((List.range a.texCount.toNat).map
      (fun t => LuaMatTexture.Compare (a.texAt t) (b.texAt t)))

/-- Modelled from the spec: the body of `LuaMaterial::Compare` is in
`LuaMaterial.cpp`, which is not part of the sources. The specification gives
the priority `category → order → standardShader → deferredShader → textures →
preSequence → postSequence → useCamera → cullMode`; the camera uniform
locations take no part. `useCamera` is compared as the integers 0 and 1. -/
def LuaMaterial.Compare (a b : LuaMaterial) : Int :=
  firstNonZero
    [cmpInt a.type b.type,
     cmpInt a.order b.order,
     LuaMatShader.Compare a.standardShader b.standardShader,
     LuaMatShader.Compare a.deferredShader b.deferredShader,
     LuaMaterial.CompareTextures a b,
     cmpInt a.preList b.preList,
     cmpInt a.postList b.postList,
     cmpInt (if a.useCamera then 1 else 0) (if b.useCamera then 1 else 0),
     cmpInt a.culling b.culling]

/-- The member `LuaMaterial::operator<`: `Compare(*this, m) < 0`. -/
def LuaMaterial.op_lt (self m : LuaMaterial) : Bool :=
  decide (LuaMaterial.Compare self m < 0)

/-- The member `LuaMaterial::operator==`: `Compare(*this, m) == 0`. -/
def LuaMaterial.op_eq (self m : LuaMaterial) : Bool :=
  decide (LuaMaterial.Compare self m = 0)

/-- The member `LuaMaterial::operator!=`: `Compare(*this, m) != 0`. -/
def LuaMaterial.op_ne (self m : LuaMaterial) : Bool :=
  decide (LuaMaterial.Compare self m ≠ 0)

/-! ## LuaMatBin -/

/-- The class `LuaMatBin : public LuaMaterial`, with its private reference
count and the two membership vectors of object addresses. -/
structure LuaMatBin extends LuaMaterial where
  refCount : Int
  units : List Nat
  features : List Nat

/-- The private constructor
`LuaMatBin(const LuaMaterial& _mat) : LuaMaterial(_mat), refCount(0) {}`;
the two vectors are default-constructed, hence empty. -/
def LuaMatBin.new (_mat : LuaMaterial) : LuaMatBin :=
  { toLuaMaterial := _mat, refCount := 0, units := [], features := [] }

/-- The member `ClearUnits() { units.clear(); }`. -/
def LuaMatBin.ClearUnits (self : LuaMatBin) : LuaMatBin :=
  { self with units := [] }

/-- The member `ClearFeatures() { features.clear(); }`. -/
def LuaMatBin.ClearFeatures (self : LuaMatBin) : LuaMatBin :=
  { self with features := [] }

/-- The member `GetUnits() const { return units; }`. -/
def LuaMatBin.GetUnits (self : LuaMatBin) : List Nat := self.units

/-- The member `GetFeatures() const { return features; }`. -/
def LuaMatBin.GetFeatures (self : LuaMatBin) : List Nat := self.features

/-- The member `AddUnit(CSolidObject* o) { units.push_back(o); }`. -/
def LuaMatBin.AddUnit (self : LuaMatBin) (o : Nat) : LuaMatBin :=
  { self with units := self.units ++ [o] }

/-- The member `AddFeature(CSolidObject* o) { features.push_back(o); }`. -/
def LuaMatBin.AddFeature (self : LuaMatBin) (o : Nat) : LuaMatBin :=
  { self with features := self.features ++ [o] }

/-- The functor `LuaMatBinPtrLessThan::operator()`: both bins are viewed as
their `LuaMaterial` base and compared with `LuaMaterial::operator<`. -/
def LuaMatBinPtrLessThan (a b : LuaMatBin) : Bool :=
  let ma : LuaMaterial := a.toLuaMaterial
  let mb : LuaMaterial := b.toLuaMaterial
  LuaMaterial.op_lt ma mb

/-! ## TeamBase -/

/-- The class `float3`, three floats. -/
structure float3 where
  x : Float
  y : Float
  z : Float

/-- The class `TeamBase` with all its data members; `unsigned char[4]`
colours are functions on `Fin 4`. -/
structure TeamBase where
  leader : Int
  color : Fin 4 → Nat
  origColor : Fin 4 → Nat
  teamStartNum : Int
  teamAllyteam : Int
  incomeMultiplier : Float
  side : String
  startPos : float3
  customValues : List (String × String)

/-- The constant `TeamBase::NUM_DEFAULT_TEAM_COLORS = 10`. -/
def NUM_DEFAULT_TEAM_COLORS : Int := 10

/-- The row index `teamNum % NUM_DEFAULT_TEAM_COLORS` of `SetDefaultColor`;
`%` on `int` is the truncating remainder. -/
def defaultColorRow (teamNum : Int) : Int :=
  Int.tmod teamNum NUM_DEFAULT_TEAM_COLORS

/-- The read `teamDefaultColor[row]` of the table declared as
`unsigned char teamDefaultColor[NUM_DEFAULT_TEAM_COLORS][4]`; its contents
are defined outside the sources and are a parameter. A row index outside the
array gives `none`. -/
def readDefaultColor (teamDefaultColor : Fin 10 → Fin 4 → Nat) (row : Int) :
    Option (Fin 4 → Nat) :=
  if h : 0 ≤ row ∧ row < NUM_DEFAULT_TEAM_COLORS then
    some (teamDefaultColor ⟨row.toNat, by
      have h2 : row < 10 := h.2
      omega⟩)
  else none

/-- The member `TeamBase::SetDefaultColor(int teamNum)`: the loop copies the
first three channels of the table row, then `color[3] = 255`. The result is
`none` when the row read is outside the table. -/
def TeamBase.SetDefaultColor (teamDefaultColor : Fin 10 → Fin 4 → Nat)
    (self : TeamBase) (teamNum : Int) : Option TeamBase :=
  match readDefaultColor teamDefaultColor (defaultColorRow teamNum) with
  | none => none
  | some row =>
    let color := ([0, 1, 2] : List (Fin 4)).foldl
      (fun c colorIdx => Function.update c colorIdx (row colorIdx)) self.color
    some { self with color := Function.update color 3 255 }

/-! ## LuaMatHandler -/

/-- Modelled from the spec: `LuaMatRef` is declared in `LuaObjectMaterial.h`,
which is not part of the sources. The specification describes it as a handle
wrapping a bin; it holds the address of that bin. -/
structure LuaMatRef where
  bin : Nat
  deriving DecidableEq, Repr

/-- The type `LuaMatBinSet = set<LuaMatBin*, LuaMatBinPtrLessThan>`: the
addresses of the bins it holds, in iteration order. -/
abbrev LuaMatBinSet := List Nat

/-- The class `LuaMatHandler`. `heap` holds the bins created with
`new LuaMatBin`, by address, and `nextAddr` is the next address handed out.
`binTypes` is the array `LuaMatBinSet binTypes[LUAMAT_TYPE_COUNT]`; the
constant `LUAMAT_TYPE_COUNT` is declared outside the sources and is the
length of the list. The shader hooks and `prevMat` take no part in the
operations modelled here. -/
structure LuaMatHandler where
  heap : Nat → Option LuaMatBin
  binTypes : List LuaMatBinSet
  nextAddr : Nat

/-- The member `GetBins(LuaMatType type) const { return binTypes[type]; }`;
a type outside the array gives `none`. -/
def LuaMatHandler.GetBins (self : LuaMatHandler) (type : Int) : Option LuaMatBinSet :=
  if 0 ≤ type then self.binTypes[type.toNat]? else none

/-- Modelled from the spec: a handler holding no bin, with `count`
categories (the state the private constructor `LuaMatHandler()`, whose body
is not part of the sources, sets up). -/
def LuaMatHandler.empty (count : Nat) : LuaMatHandler :=
  { heap := fun _ => none, binTypes := List.replicate count [], nextAddr := 0 }

/-- The test "the bin at address `p` is equal to `mat` under `Compare`". -/
def binMatches (heap : Nat → Option LuaMatBin) (mat : LuaMaterial) (p : Nat) : Bool :=
  match heap p with
  | some bin => LuaMaterial.op_eq bin.toLuaMaterial mat
  | none => false

/-- The key order of a `LuaMatBinSet` on addresses: `LuaMatBinPtrLessThan`
applied to the two bins pointed to. -/
def binBefore (heap : Nat → Option LuaMatBin) (p q : Nat) : Bool :=
  match heap p, heap q with
  | some a, some b => LuaMatBinPtrLessThan a b
  | _, _ => false

/-- The insertion `binSet.insert(bin)` of a bin that has no equal in the set:
the address `p` of `bin` goes in front of the first entry that is greater. -/
def insertBin (heap : Nat → Option LuaMatBin) (p : Nat) : LuaMatBinSet → LuaMatBinSet
  | [] => [p]
  | q :: rest => if binBefore heap p q then p :: q :: rest else q :: insertBin heap p rest

/-- Modelled from the spec: the body of `LuaMatBin::Ref` is in
`LuaMaterial.cpp`, which is not part of the sources. The specification says
"`Ref()` increments refCount". It acts on the bin at address `self`. -/
def LuaMatBin.Ref (handler : LuaMatHandler) (self : Nat) : Option LuaMatHandler :=
  match handler.heap self with
  | none => none
  | some bin =>
    some { handler with
      heap := Function.update handler.heap self
        (some { bin with refCount := bin.refCount + 1 }) }

/-- Modelled from the spec: the body of `LuaMatHandler::FreeBin` is in
`LuaMaterial.cpp`, which is not part of the sources. The specification says
"unconditional removal from its container and destruction, bypassing
refCount". -/
def LuaMatHandler.FreeBin (self : LuaMatHandler) (bin : Nat) : Option LuaMatHandler :=
  match self.heap bin with
  | none => none
  | some b =>
    match self.GetBins b.type with
    | none => none
    | some binSet =>
      some { self with
        heap := Function.update self.heap bin none
        binTypes := self.binTypes.set b.type.toNat (binSet.erase bin) }

/-- Modelled from the spec: the body of `LuaMatBin::UnRef` is in
`LuaMaterial.cpp`, which is not part of the sources. The specification says
"`UnRef()` decrements and, on reaching zero, signals the registry to remove
and destroy the bin". It acts on the bin at address `self`. -/
def LuaMatBin.UnRef (handler : LuaMatHandler) (self : Nat) : Option LuaMatHandler :=
  match handler.heap self with
  | none => none
  | some bin =>
    let bin2 : LuaMatBin := { bin with refCount := bin.refCount - 1 }
    let handler2 : LuaMatHandler :=
      { handler with heap := Function.update handler.heap self (some bin2) }
    if bin2.refCount = 0 then handler2.FreeBin self else some handler2

/-- Modelled from the spec: the body of `LuaMatHandler::GetRef` is in
`LuaMaterial.cpp`, which is not part of the sources. The specification says:
"search the ordered container for `descriptor.category` for an entry equal
under `Compare`; if found, `Ref()` it and return a handle wrapping it; else
construct a new bin from the descriptor (refCount = 1), insert into the
ordered container, and return its handle". The new bin is built by the
constructor `LuaMatBin(mat)`, which leaves `refCount` at 0, and is then
referenced once for the handle returned. A category outside the array is a
precondition violation and gives `none`. -/
def LuaMatHandler.GetRef (self : LuaMatHandler) (mat : LuaMaterial) :
    Option (LuaMatRef × LuaMatHandler) :=
  match self.GetBins mat.type with
  | none => none
  | some binSet =>
    match binSet.find? (binMatches self.heap mat) with
    | some p => (LuaMatBin.Ref self p).map (fun h => (⟨p⟩, h))
    | none =>
      let p := self.nextAddr
      let heap := Function.update self.heap p (some (LuaMatBin.new mat))
      let handler2 : LuaMatHandler :=
        { heap := heap
          binTypes := self.binTypes.set mat.type.toNat (insertBin heap p binSet)
          nextAddr := p + 1 }
      (LuaMatBin.Ref handler2 p).map (fun h => (⟨p⟩, h))

/-- The descriptor part of the bin at address `p`, if there is one. -/
def matAt (heap : Nat → Option LuaMatBin) (p : Nat) : Option LuaMaterial :=
  (heap p).map (fun bin => bin.toLuaMaterial)

/-- The reference count of the bin at address `p`, if there is one. -/
def LuaMatHandler.refCountAt (self : LuaMatHandler) (p : Nat) : Option Int :=
  (self.heap p).map (fun bin => bin.refCount)

/-- The addresses in `GetBins(mat.type)` whose bin is equal to `mat` under
`Compare`. -/
def LuaMatHandler.binsEqualTo (self : LuaMatHandler) (mat : LuaMaterial) : List Nat :=
  match self.GetBins mat.type with
  | some binSet => binSet.filter (binMatches self.heap mat)
  | none => []

/-- The number of handles outstanding on the bin equal to `mat`: its
reference count, and 0 when `GetBins(mat.type)` holds no such bin. -/
def LuaMatHandler.handlesTo (self : LuaMatHandler) (mat : LuaMaterial) : Int :=
  match self.binsEqualTo mat with
  | [] => 0
  | p :: _ => (self.refCountAt p).getD 0

/-- The state invariant of the handler: every address held by the container
of category `i` is allocated, below `nextAddr`, points to a bin of category
`i` with at least one handle, and each container is strictly increasing in
the key order. -/
structure LuaMatHandler.WF (handler : LuaMatHandler) : Prop where
  resident : ∀ (i : Nat) (s : LuaMatBinSet), handler.binTypes[i]? = some s → ∀ p ∈ s,
    p < handler.nextAddr ∧
      ∃ bin, handler.heap p = some bin ∧ bin.type = (i : Int) ∧ 1 ≤ bin.refCount
  sorted : ∀ (i : Nat) (s : LuaMatBinSet), handler.binTypes[i]? = some s →
    s.Pairwise (fun p q => binBefore handler.heap p q = true)

/-! ## Sample values -/

/-- The descriptor D1 of the specification's scenario: category 0, standard
shader of kind 3DO with program 7, two textures `(0,100)` and `(1,101)`,
`useCamera` set. -/
def sampleD1 : LuaMaterial :=
  { LuaMaterial.new with
    type := 0
    standardShader := { type := .LUASHADER_3DO, openglID := 7 }
    texCount := 2
    textures := fun i =>
      if i.val = 0 then { slot := 0, textureHandle := 100, targetKind := 0 }
      else if i.val = 1 then { slot := 1, textureHandle := 101, targetKind := 0 }
      else default }

/-- The descriptor D2 of the scenario, built apart from D1 with the same
compared fields; it differs in a camera uniform location. -/
def sampleD2 : LuaMaterial := { sampleD1 with cameraLoc := 3 }

/-- A descriptor like D1 with rendering order 1. -/
def sampleOrder1 : LuaMaterial := { sampleD1 with order := 1 }

/-- A descriptor like D1 with rendering order 2. -/
def sampleOrder2 : LuaMaterial := { sampleD1 with order := 2 }

/-- A team with leader 4, a grey colour and an original colour. -/
def sampleTeam : TeamBase :=
  { leader := 4
    color := fun _ => 9
    origColor := fun _ => 7
    teamStartNum := 0
    teamAllyteam := 1
    incomeMultiplier := 1.0
    side := "ARM"
    startPos := { x := 0.0, y := 0.0, z := 0.0 }
    customValues := [] }

/-- A default colour table whose row `r` holds `(10 r, 10 r + 1, 10 r + 2, 0)`. -/
def sampleTable : Fin 10 → Fin 4 → Nat :=
  fun r c => if c.val = 3 then 0 else 10 * r.val + c.val

/-! ## Three-way comparisons -/

/-- A three-way comparison whose sign behaves like that of a total preorder:
zero on the diagonal, sign-antisymmetric, and transitive through every mix of
"less" and "equivalent". -/
structure IsCmp {α : Type} (f : α → α → Int) : Prop where
  refl : ∀ a, f a a = 0
  anti : ∀ a b, f a b < 0 ↔ 0 < f b a
  trans_lt : ∀ a b c, f a b < 0 → f b c < 0 → f a c < 0
  trans_eq_lt : ∀ a b c, f a b = 0 → f b c < 0 → f a c < 0
  trans_lt_eq : ∀ a b c, f a b < 0 → f b c = 0 → f a c < 0
  trans_eq : ∀ a b c, f a b = 0 → f b c = 0 → f a c = 0

/-! # Theorems -/

theorem firstNonZero_cons (c : Int) (rest : List Int) :
    firstNonZero (c :: rest) = if c ≠ 0 then c else firstNonZero rest := rfl

theorem IsCmp.symm_zero {α : Type} {f : α → α → Int} (hf : IsCmp f) (a b : α) :
    f a b = 0 ↔ f b a = 0 := by
  have h1 := hf.anti a b
  have h2 := hf.anti b a
  omega

theorem isCmp_zero {α : Type} : IsCmp (fun _ _ : α => (0 : Int)) := by
  constructor <;> intros <;> simp_all

theorem isCmp_cmpInt {α : Type} (g : α → Int) :
    IsCmp (fun a b => cmpInt (g a) (g b)) := by
  constructor <;> intros <;> simp only [cmpInt] at * <;> split_ifs at * <;> omega

theorem isCmp_comap {α β : Type} {f : α → α → Int} (hf : IsCmp f) (k : β → α) :
    IsCmp (fun a b => f (k a) (k b)) where
  refl a := hf.refl (k a)
  anti a b := hf.anti (k a) (k b)
  trans_lt a b c := hf.trans_lt (k a) (k b) (k c)
  trans_eq_lt a b c := hf.trans_eq_lt (k a) (k b) (k c)
  trans_lt_eq a b c := hf.trans_lt_eq (k a) (k b) (k c)
  trans_eq a b c := hf.trans_eq (k a) (k b) (k c)

theorem isCmp_lex {α : Type} {f g : α → α → Int} (hf : IsCmp f) (hg : IsCmp g) :
    IsCmp (fun a b => if f a b ≠ 0 then f a b else g a b) := by
  constructor
  · intro a
    simp [hf.refl a, hg.refl a]
  · intro a b
    have h1 := hf.anti a b
    have h2 := hf.anti b a
    have h3 := hg.anti a b
    split_ifs <;> omega
  · intro a b c
    have := hf.anti a b; have := hf.anti b a; have := hf.anti b c
    have := hf.anti c b; have := hf.anti a c; have := hf.anti c a
    have := hf.trans_lt a b c; have := hf.trans_eq_lt a b c
    have := hf.trans_lt_eq a b c; have := hf.trans_eq a b c
    have := hg.trans_lt a b c
    split_ifs <;> omega
  · intro a b c
    have := hf.anti a b; have := hf.anti b a; have := hf.anti b c
    have := hf.anti c b; have := hf.anti a c; have := hf.anti c a
    have := hf.trans_lt a b c; have := hf.trans_eq_lt a b c
    have := hf.trans_lt_eq a b c; have := hf.trans_eq a b c
    have := hg.trans_eq_lt a b c
    split_ifs <;> omega
  · intro a b c
    have := hf.anti a b; have := hf.anti b a; have := hf.anti b c
    have := hf.anti c b; have := hf.anti a c; have := hf.anti c a
    have := hf.trans_lt a b c; have := hf.trans_eq_lt a b c
    have := hf.trans_lt_eq a b c; have := hf.trans_eq a b c
    have := hg.trans_lt_eq a b c
    split_ifs <;> omega
  · intro a b c
    have := hf.anti a b; have := hf.anti b a; have := hf.anti b c
    have := hf.anti c b; have := hf.anti a c; have := hf.anti c a
    have := hf.trans_lt a b c; have := hf.trans_eq_lt a b c
    have := hf.trans_lt_eq a b c; have := hf.trans_eq a b c
    have := hg.trans_eq a b c
    split_ifs <;> omega

theorem isCmp_shaderCompare : IsCmp LuaMatShader.Compare :=
  isCmp_lex (isCmp_cmpInt (fun s : LuaMatShader => s.type.toInt))
    (isCmp_lex (isCmp_cmpInt (fun s : LuaMatShader => (s.openglID : Int))) isCmp_zero)

theorem isCmp_textureCompare : IsCmp LuaMatTexture.Compare :=
  isCmp_lex (isCmp_cmpInt (fun t : LuaMatTexture => t.slot))
    (isCmp_lex (isCmp_cmpInt (fun t : LuaMatTexture => (t.textureHandle : Int)))
      (isCmp_lex (isCmp_cmpInt (fun t : LuaMatTexture => (t.targetKind : Int))) isCmp_zero))

/-- The pairwise comparison of the entries at a fixed list of indices. -/
theorem isCmp_entries (ts : List Nat) :
    IsCmp (fun a b : LuaMaterial =>
      firstNonZero (ts.map (fun t => LuaMatTexture.Compare (a.texAt t) (b.texAt t)))) := by
  induction ts with
  | nil => exact isCmp_zero
  | cons t ts ih =>
    exact isCmp_lex
      (isCmp_comap isCmp_textureCompare (fun m : LuaMaterial => m.texAt t)) ih

theorem isCmp_compareTextures : IsCmp LuaMaterial.CompareTextures := by
  have key : ∀ (n : Int) (a b : LuaMaterial), a.texCount = n → b.texCount = n →
      LuaMaterial.CompareTextures a b =
        firstNonZero ((List.range n.toNat).map
          (fun t => LuaMatTexture.Compare (a.texAt t) (b.texAt t))) := by
    intro n a b ha hb
    simp [LuaMaterial.CompareTextures, ha, hb]
  have lt_of : ∀ a b : LuaMaterial, a.texCount < b.texCount →
      LuaMaterial.CompareTextures a b = -1 := by
    intro a b h
    simp [LuaMaterial.CompareTextures, h, h.ne]
  have gt_of : ∀ a b : LuaMaterial, b.texCount < a.texCount →
      LuaMaterial.CompareTextures a b = 1 := by
    intro a b h
    simp [LuaMaterial.CompareTextures, h.ne.symm, not_lt.mpr h.le]
  constructor
  · intro a
    rw [key a.texCount a a rfl rfl]
    exact (isCmp_entries _).refl a
  · intro a b
    rcases lt_trichotomy a.texCount b.texCount with h | h | h
    · rw [lt_of a b h, gt_of b a h]; decide
    · rw [key a.texCount a b rfl h.symm, key a.texCount b a h.symm rfl]
      exact (isCmp_entries _).anti a b
    · rw [gt_of a b h, lt_of b a h]; decide
  all_goals
    intro a b c
    rcases lt_trichotomy a.texCount b.texCount with h | h | h <;>
    rcases lt_trichotomy b.texCount c.texCount with h2 | h2 | h2
  all_goals first
    | (rw [key a.texCount a b rfl h.symm, key a.texCount b c h.symm (by omega),
          key a.texCount a c rfl (by omega)]
       first
        | exact (isCmp_entries _).trans_lt a b c
        | exact (isCmp_entries _).trans_eq_lt a b c
        | exact (isCmp_entries _).trans_lt_eq a b c
        | exact (isCmp_entries _).trans_eq a b c)
    | (have e1 : a.texCount < c.texCount := by omega
       first
        | (rw [lt_of a b h, lt_of a c e1]; intros; decide)
        | (rw [lt_of b c h2, lt_of a c e1]; intros; decide)
        | (rw [lt_of a b h]; intro h0; exact absurd h0 (by decide))
        | (rw [lt_of b c h2]; intro _ h0; exact absurd h0 (by decide)))
    | (first
        | (rw [gt_of a b h]; intro h0; exact absurd h0 (by decide))
        | (rw [gt_of b c h2]; intro _ h0; exact absurd h0 (by decide)))

theorem isCmp_materialCompare : IsCmp LuaMaterial.Compare :=
  isCmp_lex (isCmp_cmpInt (fun m : LuaMaterial => m.type))
  (isCmp_lex (isCmp_cmpInt (fun m : LuaMaterial => m.order))
  (isCmp_lex (isCmp_comap isCmp_shaderCompare (fun m : LuaMaterial => m.standardShader))
  (isCmp_lex (isCmp_comap isCmp_shaderCompare (fun m : LuaMaterial => m.deferredShader))
  (isCmp_lex isCmp_compareTextures
  (isCmp_lex (isCmp_cmpInt (fun m : LuaMaterial => (m.preList : Int)))
  (isCmp_lex (isCmp_cmpInt (fun m : LuaMaterial => (m.postList : Int)))
  (isCmp_lex (isCmp_cmpInt (fun m : LuaMaterial => if m.useCamera then 1 else 0))
  (isCmp_lex (isCmp_cmpInt (fun m : LuaMaterial => (m.culling : Int))) isCmp_zero))))))))

/-! ## The comparator (C1, C10, C6) -/

/-- C1: `LuaMaterial::Compare` is zero on the diagonal, `Compare(a,b) < 0`
exactly when `Compare(b,a) > 0`, and `Compare(a,b) < 0`, `Compare(b,c) < 0`
give `Compare(a,c) < 0`; hence `operator<` is irreflexive, asymmetric and
transitive and `operator==` is reflexive. -/
theorem Compare_strict_total_order :
    (∀ a, LuaMaterial.Compare a a = 0) ∧
    (∀ a b, LuaMaterial.Compare a b < 0 ↔ LuaMaterial.Compare b a > 0) ∧
    (∀ a b c, LuaMaterial.Compare a b < 0 → LuaMaterial.Compare b c < 0 →
      LuaMaterial.Compare a c < 0) ∧
    (∀ a, LuaMaterial.op_lt a a = false) ∧
    (∀ a b, LuaMaterial.op_lt a b = true → LuaMaterial.op_lt b a = false) ∧
    (∀ a b c, LuaMaterial.op_lt a b = true → LuaMaterial.op_lt b c = true →
      LuaMaterial.op_lt a c = true) ∧
    (∀ a, LuaMaterial.op_eq a a = true) := by
  have hc := isCmp_materialCompare
  refine ⟨hc.refl, hc.anti, hc.trans_lt, ?_, ?_, ?_, ?_⟩
  · intro a
    simp [LuaMaterial.op_lt, hc.refl a]
  · intro a b h
    have h1 := (hc.anti a b)
    simp only [LuaMaterial.op_lt, decide_eq_true_eq, decide_eq_false_iff_not] at h ⊢
    omega
  · intro a b c h1 h2
    simp only [LuaMaterial.op_lt, decide_eq_true_eq] at h1 h2 ⊢
    exact hc.trans_lt a b c h1 h2
  · intro a
    simp [LuaMaterial.op_eq, hc.refl a]

/-- Witness for C1: three descriptors of rendering order 0, 1 and 2. -/
theorem Compare_strict_total_order_witness :
    LuaMaterial.Compare sampleD1 sampleOrder1 < 0 ∧
    LuaMaterial.Compare sampleOrder1 sampleOrder2 < 0 ∧
    LuaMaterial.Compare sampleD1 sampleOrder2 < 0 :=
  ⟨by decide, by decide,
    Compare_strict_total_order.2.2.1 sampleD1 sampleOrder1 sampleOrder2
      (by decide) (by decide)⟩

/-- C10: for `LuaMaterial` and for `LuaMatShader`, `a != b` is the negation of
`a == b`, `a < b` and `a == b` never both hold, and exactly one of `a < b`,
`a == b`, `Compare(a,b) > 0` is true. -/
theorem operators_follow_Compare_sign :
    (∀ a b : LuaMaterial,
      LuaMaterial.op_ne a b = !LuaMaterial.op_eq a b ∧
      ¬(LuaMaterial.op_lt a b = true ∧ LuaMaterial.op_eq a b = true) ∧
      (LuaMaterial.op_lt a b = true ∨ LuaMaterial.op_eq a b = true ∨
        LuaMaterial.Compare a b > 0) ∧
      ¬(LuaMaterial.op_lt a b = true ∧ LuaMaterial.Compare a b > 0) ∧
      ¬(LuaMaterial.op_eq a b = true ∧ LuaMaterial.Compare a b > 0)) ∧
    (∀ a b : LuaMatShader,
      LuaMatShader.op_ne a b = !LuaMatShader.op_eq a b ∧
      ¬(LuaMatShader.op_lt a b = true ∧ LuaMatShader.op_eq a b = true) ∧
      (LuaMatShader.op_lt a b = true ∨ LuaMatShader.op_eq a b = true ∨
        LuaMatShader.Compare a b > 0) ∧
      ¬(LuaMatShader.op_lt a b = true ∧ LuaMatShader.Compare a b > 0) ∧
      ¬(LuaMatShader.op_eq a b = true ∧ LuaMatShader.Compare a b > 0)) := by
  constructor
  · intro a b
    simp only [LuaMaterial.op_ne, LuaMaterial.op_eq, LuaMaterial.op_lt, decide_eq_true_eq]
    refine ⟨by simp, ?_, ?_, ?_, ?_⟩ <;> omega
  · intro a b
    simp only [LuaMatShader.op_ne, LuaMatShader.op_eq, LuaMatShader.op_lt, decide_eq_true_eq]
    refine ⟨by simp, ?_, ?_, ?_, ?_⟩ <;> omega

/-- C6: `LuaMatBinPtrLessThan(a,b)` holds exactly when `Compare` of the two
descriptors is negative, and replacing the reference count, the unit list and
the feature list of either bin leaves the result unchanged. -/
theorem LuaMatBinPtrLessThan_is_Compare :
    (∀ a b : LuaMatBin, LuaMatBinPtrLessThan a b = true ↔
      LuaMaterial.Compare a.toLuaMaterial b.toLuaMaterial < 0) ∧
    (∀ (ma mb : LuaMaterial) (ra ra2 rb rb2 : Int) (ua ua2 ub ub2 fa fa2 fb fb2 : List Nat),
      LuaMatBinPtrLessThan
          { toLuaMaterial := ma, refCount := ra, units := ua, features := fa }
          { toLuaMaterial := mb, refCount := rb, units := ub, features := fb } =
        LuaMatBinPtrLessThan
          { toLuaMaterial := ma, refCount := ra2, units := ua2, features := fa2 }
          { toLuaMaterial := mb, refCount := rb2, units := ub2, features := fb2 }) := by
  constructor
  · intro a b
    simp [LuaMatBinPtrLessThan, LuaMaterial.op_lt]
  · intros
    rfl

/-! ## Bins (C4, C5) -/

/-- The bin the private constructor `LuaMatBin(mat)` builds, before the
handler references it: `refCount` 0, a copy of the descriptor's fields, and
empty unit and feature lists. -/
theorem LuaMatBin_new_fields (mat : LuaMaterial) :
    (LuaMatBin.new mat).refCount = 0 ∧
    (LuaMatBin.new mat).toLuaMaterial = mat ∧
    (LuaMatBin.new mat).GetUnits = [] ∧
    (LuaMatBin.new mat).GetFeatures = [] :=
  ⟨rfl, rfl, rfl, rfl⟩

/-- C4: `ClearUnits` leaves `GetUnits()` empty and the reference count, the
feature list and the descriptor unchanged; `ClearFeatures` likewise with the
two lists exchanged. -/
theorem Clear_frame (bin : LuaMatBin) :
    (bin.ClearUnits.GetUnits = [] ∧
      bin.ClearUnits.refCount = bin.refCount ∧
      bin.ClearUnits.GetFeatures = bin.GetFeatures ∧
      bin.ClearUnits.toLuaMaterial = bin.toLuaMaterial) ∧
    (bin.ClearFeatures.GetFeatures = [] ∧
      bin.ClearFeatures.refCount = bin.refCount ∧
      bin.ClearFeatures.GetUnits = bin.GetUnits ∧
      bin.ClearFeatures.toLuaMaterial = bin.toLuaMaterial) :=
  ⟨⟨rfl, rfl, rfl, rfl⟩, ⟨rfl, rfl, rfl, rfl⟩⟩

/-- C5: `AddUnit(o)` makes `GetUnits()` the previous list with `o` appended:
the length grows by one, earlier entries stay in place, the number of
occurrences of `o` grows by one whether or not it was present, and the feature
list, the reference count and the descriptor are unchanged; `AddFeature`
likewise on the feature list. -/
theorem Add_appends (bin : LuaMatBin) (o : Nat) :
    ((bin.AddUnit o).GetUnits = bin.GetUnits ++ [o] ∧
      (bin.AddUnit o).GetUnits.length = bin.GetUnits.length + 1 ∧
      (∀ i, i < bin.GetUnits.length → (bin.AddUnit o).GetUnits[i]? = bin.GetUnits[i]?) ∧
      (bin.AddUnit o).GetUnits.count o = bin.GetUnits.count o + 1 ∧
      (bin.AddUnit o).GetFeatures = bin.GetFeatures ∧
      (bin.AddUnit o).refCount = bin.refCount ∧
      (bin.AddUnit o).toLuaMaterial = bin.toLuaMaterial) ∧
    ((bin.AddFeature o).GetFeatures = bin.GetFeatures ++ [o] ∧
      (bin.AddFeature o).GetFeatures.length = bin.GetFeatures.length + 1 ∧
      (∀ i, i < bin.GetFeatures.length →
        (bin.AddFeature o).GetFeatures[i]? = bin.GetFeatures[i]?) ∧
      (bin.AddFeature o).GetFeatures.count o = bin.GetFeatures.count o + 1 ∧
      (bin.AddFeature o).GetUnits = bin.GetUnits ∧
      (bin.AddFeature o).refCount = bin.refCount ∧
      (bin.AddFeature o).toLuaMaterial = bin.toLuaMaterial) := by
  refine ⟨⟨rfl, ?_, ?_, ?_, rfl, rfl, rfl⟩, ⟨rfl, ?_, ?_, ?_, rfl, rfl, rfl⟩⟩
  · simp [LuaMatBin.AddUnit, LuaMatBin.GetUnits]
  · intro i hi
    simp only [LuaMatBin.AddUnit, LuaMatBin.GetUnits] at hi ⊢
    exact List.getElem?_append_left hi
  · simp [LuaMatBin.AddUnit, LuaMatBin.GetUnits]
  · simp [LuaMatBin.AddFeature, LuaMatBin.GetFeatures]
  · intro i hi
    simp only [LuaMatBin.AddFeature, LuaMatBin.GetFeatures] at hi ⊢
    exact List.getElem?_append_left hi
  · simp [LuaMatBin.AddFeature, LuaMatBin.GetFeatures]

/-! ## The category of a descriptor (C7) -/

/-- C7, as found false: the default-constructed descriptor has category -1,
which is negative and for which `GetBins` of a handler of five categories has
no container. -/
theorem default_category_invalid :
    LuaMaterial.new.type = -1 ∧ ¬(0 ≤ LuaMaterial.new.type) ∧
    (LuaMatHandler.empty 5).GetBins LuaMaterial.new.type = none := by
  decide

/-- C7, amended: the category of a descriptor is a valid index for `GetBins`
exactly when it lies in `[0, LUAMAT_TYPE_COUNT)`, and the category -1 of the
default-constructed descriptor never is. -/
theorem category_valid_iff (handler : LuaMatHandler) (mat : LuaMaterial) :
    ((handler.GetBins mat.type).isSome = true ↔
      0 ≤ mat.type ∧ mat.type < handler.binTypes.length) ∧
    handler.GetBins LuaMaterial.new.type = none := by
  constructor
  · unfold LuaMatHandler.GetBins
    split_ifs with h
    · rw [Option.isSome_iff_exists]
      constructor
      · rintro ⟨s, hs⟩
        have := (List.getElem?_eq_some_iff.mp hs).1
        omega
      · rintro ⟨_, h2⟩
        have h3 : mat.type.toNat < handler.binTypes.length := by omega
        exact ⟨_, List.getElem?_eq_getElem h3⟩
    · simp [h]
  · simp [LuaMatHandler.GetBins, LuaMaterial.new]

/-! ## Team colours (C8, C9) -/

/-- The row index is in range for a non-negative team number. -/
theorem defaultColorRow_of_nonneg (teamNum : Int) (h : 0 ≤ teamNum) :
    0 ≤ defaultColorRow teamNum ∧ defaultColorRow teamNum < NUM_DEFAULT_TEAM_COLORS := by
  unfold defaultColorRow NUM_DEFAULT_TEAM_COLORS
  exact ⟨Int.tmod_nonneg _ h, Int.tmod_lt_of_pos _ (by decide)⟩

/-- The truncating remainder by 10, as a natural number, is below 10. -/
theorem tmod_ten_toNat_lt (teamNum : Int) : (Int.tmod teamNum 10).toNat < 10 := by
  have := Int.tmod_lt_of_pos teamNum (show (0 : Int) < 10 by decide)
  omega

/-- C8, as found false: for team number -13 the row index is -3, the read of
the table is outside it, and `SetDefaultColor` produces no colour. -/
theorem SetDefaultColor_negative_team :
    Int.tmod (-13) 10 = -3 ∧ defaultColorRow (-13) = -3 ∧
    (sampleTeam.SetDefaultColor sampleTable (-13)).isNone = true := by
  decide

/-- C8, amended: for every non-negative team number `teamNum`,
`SetDefaultColor(teamNum)` sets the alpha channel to 255 and the first three
channels to those of row `teamNum % 10` (truncating remainder) of
`teamDefaultColor`, and leaves `origColor`, `leader` and every other field
unchanged. -/
theorem SetDefaultColor_sets_color (teamDefaultColor : Fin 10 → Fin 4 → Nat)
    (team : TeamBase) (teamNum : Int) (h : 0 ≤ teamNum) :
    ∃ team2,
      team.SetDefaultColor teamDefaultColor teamNum = some team2 ∧
      team2.color 3 = 255 ∧
      team2.color 0 =
        teamDefaultColor ⟨(Int.tmod teamNum 10).toNat, tmod_ten_toNat_lt teamNum⟩ 0 ∧
      team2.color 1 =
        teamDefaultColor ⟨(Int.tmod teamNum 10).toNat, tmod_ten_toNat_lt teamNum⟩ 1 ∧
      team2.color 2 =
        teamDefaultColor ⟨(Int.tmod teamNum 10).toNat, tmod_ten_toNat_lt teamNum⟩ 2 ∧
      team2.leader = team.leader ∧ team2.origColor = team.origColor ∧
      team2 = { team with color := team2.color } := by
  obtain ⟨h1, h2⟩ := defaultColorRow_of_nonneg teamNum h
  have hrow : readDefaultColor teamDefaultColor (defaultColorRow teamNum) =
      some (teamDefaultColor ⟨(Int.tmod teamNum 10).toNat, tmod_ten_toNat_lt teamNum⟩) := by
    unfold readDefaultColor
    rw [dif_pos ⟨h1, h2⟩]
    rfl
  refine ⟨{ team with color := (Function.update (([0, 1, 2] : List (Fin 4)).foldl
      (fun c colorIdx => Function.update c colorIdx
        (teamDefaultColor ⟨(Int.tmod teamNum 10).toNat, tmod_ten_toNat_lt teamNum⟩ colorIdx))
      team.color) 3 255) },
    ?_, ?_, ?_, ?_, ?_, rfl, rfl, rfl⟩
  · simp only [TeamBase.SetDefaultColor, hrow]
  · simp
  · simp [Function.update]
  · simp [Function.update]
  · simp [Function.update]

/-- Witness for C8: team number 13 reads row 3 of the sample table, whose
first three channels are 30, 31 and 32. -/
theorem SetDefaultColor_sets_color_witness :
    (0 : Int) ≤ 13 ∧ Int.tmod 13 10 = 3 ∧
    sampleTable ⟨3, by decide⟩ 0 = 30 ∧ sampleTable ⟨3, by decide⟩ 1 = 31 ∧
    sampleTable ⟨3, by decide⟩ 2 = 32 ∧
    ∃ team2,
      sampleTeam.SetDefaultColor sampleTable 13 = some team2 ∧
      team2.color 3 = 255 ∧
      team2.color 0 = sampleTable ⟨(Int.tmod 13 10).toNat, tmod_ten_toNat_lt 13⟩ 0 ∧
      team2.color 1 = sampleTable ⟨(Int.tmod 13 10).toNat, tmod_ten_toNat_lt 13⟩ 1 ∧
      team2.color 2 = sampleTable ⟨(Int.tmod 13 10).toNat, tmod_ten_toNat_lt 13⟩ 2 ∧
      team2.leader = sampleTeam.leader ∧ team2.origColor = sampleTeam.origColor ∧
      team2 = { sampleTeam with color := team2.color } :=
  ⟨by decide, by decide, by decide, by decide, by decide,
    SetDefaultColor_sets_color sampleTable sampleTeam 13 (by decide)⟩

/-- C9, as found false: for team number -1 the row index is -1, which is
negative, and the read of the table is outside it. -/
theorem defaultColorRow_negative :
    defaultColorRow (-1) = -1 ∧ ¬(0 ≤ defaultColorRow (-1)) ∧
    readDefaultColor sampleTable (defaultColorRow (-1)) = none ∧
    (sampleTeam.SetDefaultColor sampleTable (-1)).isNone = true := by
  decide

/-- C9, amended: for every non-negative `teamNum` the row index
`teamNum % NUM_DEFAULT_TEAM_COLORS` lies in `[0, 10)` and the read of the
table is inside it. -/
theorem defaultColorRow_in_range (teamDefaultColor : Fin 10 → Fin 4 → Nat)
    (teamNum : Int) (h : 0 ≤ teamNum) :
    0 ≤ defaultColorRow teamNum ∧ defaultColorRow teamNum < 10 ∧
    (readDefaultColor teamDefaultColor (defaultColorRow teamNum)).isSome = true := by
  obtain ⟨h1, h2⟩ := defaultColorRow_of_nonneg teamNum h
  refine ⟨h1, h2, ?_⟩
  unfold readDefaultColor
  rw [dif_pos ⟨h1, h2⟩]
  rfl

/-- Witness for C9: team number 27 gives row index 7. -/
theorem defaultColorRow_in_range_witness :
    (0 : Int) ≤ 27 ∧ defaultColorRow 27 = 7 ∧
    0 ≤ defaultColorRow 27 ∧ defaultColorRow 27 < 10 ∧
    (readDefaultColor sampleTable (defaultColorRow 27)).isSome = true :=
  ⟨by decide, by decide, defaultColorRow_in_range sampleTable 27 (by decide)⟩

/-! ## The handler: look-up and key order on addresses -/

theorem Compare_zero_type {a b : LuaMaterial} (h : LuaMaterial.Compare a b = 0) :
    a.type = b.type := by
  by_contra hne
  have h1 : cmpInt a.type b.type ≠ 0 := by
    unfold cmpInt
    split_ifs <;> omega
  rw [LuaMaterial.Compare, firstNonZero_cons, if_pos h1] at h
  exact h1 h

theorem binMatches_iff {heap : Nat → Option LuaMatBin} {mat : LuaMaterial} {p : Nat} :
    binMatches heap mat p = true ↔
      ∃ bin, heap p = some bin ∧ LuaMaterial.Compare bin.toLuaMaterial mat = 0 := by
  unfold binMatches
  cases heap p with
  | none => simp
  | some bin => simp [LuaMaterial.op_eq]

theorem binBefore_iff {heap : Nat → Option LuaMatBin} {p q : Nat} :
    binBefore heap p q = true ↔
      ∃ a b, heap p = some a ∧ heap q = some b ∧
        LuaMaterial.Compare a.toLuaMaterial b.toLuaMaterial < 0 := by
  unfold binBefore
  cases heap p with
  | none => simp
  | some a =>
    cases heap q with
    | none => simp
    | some b => simp [LuaMatBinPtrLessThan, LuaMaterial.op_lt]

theorem binMatches_of_matAt {heap heap2 : Nat → Option LuaMatBin} {p : Nat}
    (h : matAt heap p = matAt heap2 p) (mat : LuaMaterial) :
    binMatches heap mat p = binMatches heap2 mat p := by
  unfold matAt at h
  unfold binMatches
  cases h1 : heap p <;> cases h2 : heap2 p <;> simp_all

theorem binBefore_of_matAt {heap heap2 : Nat → Option LuaMatBin} {p q : Nat}
    (hp : matAt heap p = matAt heap2 p) (hq : matAt heap q = matAt heap2 q) :
    binBefore heap p q = binBefore heap2 p q := by
  unfold matAt at hp hq
  unfold binBefore LuaMatBinPtrLessThan
  cases h1 : heap p <;> cases h2 : heap2 p <;> cases h3 : heap q <;> cases h4 : heap2 q <;>
    simp_all

theorem matAt_update (heap : Nat → Option LuaMatBin) (p q : Nat) (v : Option LuaMatBin) :
    matAt (Function.update heap p v) q =
      if q = p then v.map (fun bin => bin.toLuaMaterial) else matAt heap q := by
  unfold matAt
  by_cases h : q = p
  · subst h
    simp
  · simp [Function.update_noteq h, h]

theorem binBefore_trans {heap : Nat → Option LuaMatBin} {p q r : Nat}
    (h1 : binBefore heap p q = true) (h2 : binBefore heap q r = true) :
    binBefore heap p r = true := by
  rw [binBefore_iff] at h1 h2 ⊢
  obtain ⟨a, b, ha, hb, hab⟩ := h1
  obtain ⟨b2, c, hb2, hc, hbc⟩ := h2
  rw [hb] at hb2
  cases hb2
  exact ⟨a, c, ha, hc, isCmp_materialCompare.trans_lt _ _ _ hab hbc⟩

theorem binBefore_irrefl (heap : Nat → Option LuaMatBin) (p : Nat) :
    binBefore heap p p = false := by
  rw [Bool.eq_false_iff]
  intro h
  rw [binBefore_iff] at h
  obtain ⟨a, b, ha, hb, hab⟩ := h
  rw [ha] at hb
  cases hb
  rw [isCmp_materialCompare.refl] at hab
  exact absurd hab (by decide)

/-- Two addresses in key order cannot both hold a bin equal to `mat`. -/
theorem not_both_match {heap : Nat → Option LuaMatBin} {mat : LuaMaterial} {p q : Nat}
    (hpq : binBefore heap p q = true) (hp : binMatches heap mat p = true)
    (hq : binMatches heap mat q = true) : False := by
  rw [binBefore_iff] at hpq
  rw [binMatches_iff] at hp hq
  obtain ⟨a, b, ha, hb, hab⟩ := hpq
  obtain ⟨a2, ha2, hae⟩ := hp
  obtain ⟨b2, hb2, hbe⟩ := hq
  rw [ha] at ha2
  rw [hb] at hb2
  cases ha2
  cases hb2
  have h1 := (isCmp_materialCompare.symm_zero _ _).mp hbe
  have h2 := isCmp_materialCompare.trans_eq _ _ _ hae h1
  omega

/-- In a container that is strictly increasing in the key order, a bin equal
to `mat` is the only one. -/
theorem filter_matches_of_sorted {heap : Nat → Option LuaMatBin} {mat : LuaMaterial}
    {s : List Nat} (hs : s.Pairwise (fun p q => binBefore heap p q = true))
    {p : Nat} (hp : p ∈ s) (hm : binMatches heap mat p = true) :
    s.filter (binMatches heap mat) = [p] := by
  induction s with
  | nil => simp at hp
  | cons q rest ih =>
    rw [List.pairwise_cons] at hs
    by_cases hq : binMatches heap mat q = true
    · have hrest : rest.filter (binMatches heap mat) = [] := by
        rw [List.filter_eq_nil_iff]
        intro x hx hxm
        exact not_both_match (hs.1 x hx) hq hxm
      have hpq : p = q := by
        rcases List.mem_cons.mp hp with h | h
        · exact h
        · exact absurd hm (List.filter_eq_nil_iff.mp hrest p h)
      rw [List.filter_cons_of_pos hq, hrest, hpq]
    · have hne : p ≠ q := fun h => hq (h ▸ hm)
      have hpr : p ∈ rest := by
        rcases List.mem_cons.mp hp with h | h
        · exact absurd h hne
        · exact h
      rw [List.filter_cons_of_neg hq]
      exact ih hs.2 hpr

theorem nodup_of_sorted {heap : Nat → Option LuaMatBin} {s : List Nat}
    (hs : s.Pairwise (fun p q => binBefore heap p q = true)) : s.Nodup := by
  refine List.Pairwise.imp ?_ hs
  intro a b hab hEq
  subst hEq
  rw [binBefore_irrefl] at hab
  exact absurd hab (by decide)

theorem mem_insertBin {heap : Nat → Option LuaMatBin} {p : Nat} {s : List Nat} {x : Nat} :
    x ∈ insertBin heap p s ↔ x = p ∨ x ∈ s := by
  induction s with
  | nil => simp [insertBin]
  | cons q rest ih =>
    unfold insertBin
    split_ifs
    · simp
    · simp only [List.mem_cons, ih]
      tauto

/-- Inserting the address of a bin that is comparable with every entry keeps
the container strictly increasing. -/
theorem sorted_insertBin {heap : Nat → Option LuaMatBin} {p : Nat} {s : List Nat}
    (hs : s.Pairwise (fun a b => binBefore heap a b = true))
    (htot : ∀ q ∈ s, binBefore heap p q = true ∨ binBefore heap q p = true) :
    (insertBin heap p s).Pairwise (fun a b => binBefore heap a b = true) := by
  induction s with
  | nil => simp [insertBin]
  | cons q rest ih =>
    rw [List.pairwise_cons] at hs
    unfold insertBin
    split_ifs with hpq
    · rw [List.pairwise_cons]
      refine ⟨?_, List.pairwise_cons.mpr hs⟩
      intro x hx
      rcases List.mem_cons.mp hx with h | h
      · rw [h]; exact hpq
      · exact binBefore_trans hpq (hs.1 x h)
    · rw [List.pairwise_cons]
      refine ⟨?_, ih hs.2 (fun x hx => htot x (List.mem_cons_of_mem _ hx))⟩
      intro x hx
      rcases mem_insertBin.mp hx with h | h
      · rw [h]
        rcases htot q (List.mem_cons_self _ _) with h1 | h1
        · exact absurd h1 hpq
        · exact h1
      · exact hs.1 x h

theorem GetBins_eq_some {handler : LuaMatHandler} {type : Int} (h0 : 0 ≤ type)
    (h1 : type < handler.binTypes.length) :
    ∃ s, handler.GetBins type = some s ∧ handler.binTypes[type.toNat]? = some s := by
  have h2 : type.toNat < handler.binTypes.length := by omega
  refine ⟨handler.binTypes[type.toNat], ?_, List.getElem?_eq_getElem h2⟩
  simp [LuaMatHandler.GetBins, h0, List.getElem?_eq_getElem h2]

theorem GetBins_some_iff {handler : LuaMatHandler} {type : Int} {s : LuaMatBinSet} :
    handler.GetBins type = some s ↔
      0 ≤ type ∧ handler.binTypes[type.toNat]? = some s := by
  unfold LuaMatHandler.GetBins
  split_ifs with h
  · simp [h]
  · simp [h]

/-! ## The handler: changing a reference count -/

theorem matAt_update_same_mat {heap : Nat → Option LuaMatBin} {p : Nat} {b : LuaMatBin}
    (hb : heap p = some b) (b2 : LuaMatBin) (hmat : b2.toLuaMaterial = b.toLuaMaterial)
    (q : Nat) :
    matAt (Function.update heap p (some b2)) q = matAt heap q := by
  rw [matAt_update]
  split_ifs with h
  · subst h
    simp [matAt, hb, hmat]
  · rfl

theorem binsEqualTo_congr (h h2 : LuaMatHandler) (hbt : h2.binTypes = h.binTypes)
    (hm : ∀ q, matAt h2.heap q = matAt h.heap q) (mat : LuaMaterial) :
    h2.binsEqualTo mat = h.binsEqualTo mat := by
  unfold LuaMatHandler.binsEqualTo LuaMatHandler.GetBins
  rw [hbt]
  have hf : binMatches h2.heap mat = binMatches h.heap mat :=
    funext (fun q => binMatches_of_matAt (hm q) mat)
  rw [hf]

/-- Replacing the bin at `p` by one with the same descriptor and a positive
reference count keeps the invariant. -/
theorem WF_update_refCount {h h2 : LuaMatHandler} (hwf : h.WF) {p : Nat} {b b2 : LuaMatBin}
    (hb : h.heap p = some b) (hheap : h2.heap = Function.update h.heap p (some b2))
    (hmat : b2.toLuaMaterial = b.toLuaMaterial) (hrc : 1 ≤ b2.refCount)
    (hbt : h2.binTypes = h.binTypes) (hn : h2.nextAddr = h.nextAddr) : h2.WF := by
  constructor
  · intro i s hs q hq
    rw [hbt] at hs
    obtain ⟨hlt, bin, hbin, hty, hcnt⟩ := hwf.resident i s hs q hq
    refine ⟨hn ▸ hlt, ?_⟩
    rw [hheap]
    by_cases hqp : q = p
    · subst hqp
      rw [hb] at hbin
      cases hbin
      refine ⟨b2, by simp, ?_, hrc⟩
      rw [← hty]
      exact congrArg LuaMaterial.type hmat
    · exact ⟨bin, by simp [Function.update_noteq hqp, hbin], hty, hcnt⟩
  · intro i s hs
    rw [hbt] at hs
    refine List.Pairwise.imp ?_ (hwf.sorted i s hs)
    intro x y hxy
    rw [← hxy, hheap]
    exact binBefore_of_matAt (matAt_update_same_mat hb b2 hmat x)
      (matAt_update_same_mat hb b2 hmat y)

theorem handlesTo_of_singleton {h : LuaMatHandler} {mat : LuaMaterial} {p : Nat} {c : Int}
    (hs : h.binsEqualTo mat = [p]) (hc : h.refCountAt p = some c) : h.handlesTo mat = c := by
  simp [LuaMatHandler.handlesTo, hs, hc]

theorem handlesTo_of_nil {h : LuaMatHandler} {mat : LuaMaterial}
    (hs : h.binsEqualTo mat = []) : h.handlesTo mat = 0 := by
  simp [LuaMatHandler.handlesTo, hs]

theorem sorted_transfer {heap heap2 : Nat → Option LuaMatBin} {s : List Nat}
    (hs : s.Pairwise (fun p q => binBefore heap p q = true))
    (hag : ∀ q ∈ s, matAt heap2 q = matAt heap q) :
    s.Pairwise (fun p q => binBefore heap2 p q = true) := by
  refine List.Pairwise.imp_of_mem ?_ hs
  intro a b ha hb hab
  rw [← hab]
  exact binBefore_of_matAt (hag a ha) (hag b hb)

/-! ## The handler: `GetRef` -/

/-- The found case of `GetRef`: the resident bin equal to `mat` gets one more
reference and its address is returned. -/
theorem GetRef_found {h : LuaMatHandler} (hwf : h.WF) {mat : LuaMaterial} {s : LuaMatBinSet}
    (hG : h.GetBins mat.type = some s) {p : Nat}
    (hfind : s.find? (binMatches h.heap mat) = some p) :
    ∃ h2, h.GetRef mat = some (⟨p⟩, h2) ∧ h2.WF ∧ h2.binTypes = h.binTypes ∧
      h2.binsEqualTo mat = [p] ∧ h.binsEqualTo mat = [p] ∧
      h2.refCountAt p = some (h.handlesTo mat + 1) := by
  have hps : p ∈ s := List.mem_of_find?_eq_some hfind
  have hpm : binMatches h.heap mat p = true := List.find?_some hfind
  obtain ⟨b, hb, hcmp⟩ := binMatches_iff.mp hpm
  obtain ⟨h0, hS⟩ := GetBins_some_iff.mp hG
  have hsorted := hwf.sorted _ s hS
  have hfil : h.binsEqualTo mat = [p] := by
    unfold LuaMatHandler.binsEqualTo
    rw [hG]
    exact filter_matches_of_sorted hsorted hps hpm
  obtain ⟨_, bin, hbin, _, hcnt⟩ := hwf.resident _ s hS p hps
  rw [hb] at hbin
  cases hbin
  have hk : h.handlesTo mat = b.refCount :=
    handlesTo_of_singleton hfil (by simp [LuaMatHandler.refCountAt, hb])
  obtain ⟨b2, hb2⟩ : ∃ x : LuaMatBin, x = { b with refCount := b.refCount + 1 } := ⟨_, rfl⟩
  obtain ⟨h2, hh2⟩ : ∃ x : LuaMatHandler,
      x = { h with heap := (Function.update h.heap p (some b2)) } := ⟨_, rfl⟩
  have hheap : h2.heap = Function.update h.heap p (some b2) := by rw [hh2]
  have hbt : h2.binTypes = h.binTypes := by rw [hh2]
  have hn : h2.nextAddr = h.nextAddr := by rw [hh2]
  have hmat : b2.toLuaMaterial = b.toLuaMaterial := by rw [hb2]
  have hrc : b2.refCount = b.refCount + 1 := by rw [hb2]
  refine ⟨h2, ?_, ?_, hbt, ?_, hfil, ?_⟩
  · rw [hh2, hb2]
    simp [LuaMatHandler.GetRef, hG, hfind, LuaMatBin.Ref, hb]
  · exact WF_update_refCount hwf hb hheap hmat (by omega) hbt hn
  · rw [binsEqualTo_congr h h2 hbt
      (fun q => by rw [hheap]; exact matAt_update_same_mat hb b2 hmat q) mat]
    exact hfil
  · rw [hk]
    simp [LuaMatHandler.refCountAt, hheap, hrc]

/-- The not-found case of `GetRef`: a new bin is made at the next address,
inserted, and referenced once. -/
theorem GetRef_new {h : LuaMatHandler} (hwf : h.WF) {mat : LuaMaterial} {s : LuaMatBinSet}
    (hG : h.GetBins mat.type = some s)
    (hfind : s.find? (binMatches h.heap mat) = none) :
    ∃ h2, h.GetRef mat = some (⟨h.nextAddr⟩, h2) ∧ h2.WF ∧
      h2.binTypes.length = h.binTypes.length ∧
      h2.binsEqualTo mat = [h.nextAddr] ∧ h.binsEqualTo mat = [] ∧
      h2.refCountAt h.nextAddr = some 1 ∧
      h2.heap h.nextAddr =
        some { toLuaMaterial := mat, refCount := 1, units := [], features := [] } := by
  obtain ⟨h0, hS⟩ := GetBins_some_iff.mp hG
  have hlen : mat.type.toNat < h.binTypes.length := (List.getElem?_eq_some_iff.mp hS).1
  have htype : ((mat.type.toNat : Nat) : Int) = mat.type := Int.toNat_of_nonneg h0
  -- no resident address is the fresh one
  have hfresh : ∀ (i : Nat) (s2 : LuaMatBinSet), h.binTypes[i]? = some s2 →
      ∀ q ∈ s2, q ≠ h.nextAddr := by
    intro i s2 hs2 q hq
    have := (hwf.resident i s2 hs2 q hq).1
    omega
  have hnone : ∀ q ∈ s, binMatches h.heap mat q ≠ true := by
    intro q hq
    exact List.find?_eq_none.mp hfind q hq
  -- the heap after `new LuaMatBin(mat)` and the heap after the reference
  obtain ⟨heap1, hheap1⟩ : ∃ x : Nat → Option LuaMatBin,
      x = Function.update h.heap h.nextAddr (some (LuaMatBin.new mat)) := ⟨_, rfl⟩
  obtain ⟨b2, hb2⟩ : ∃ x : LuaMatBin,
      x = { toLuaMaterial := mat, refCount := 1, units := [], features := [] } := ⟨_, rfl⟩
  obtain ⟨heap2, hheap2⟩ : ∃ x : Nat → Option LuaMatBin,
      x = Function.update heap1 h.nextAddr (some b2) := ⟨_, rfl⟩
  obtain ⟨h2, hh2⟩ : ∃ x : LuaMatHandler,
      x = ⟨heap2, h.binTypes.set mat.type.toNat (insertBin heap1 h.nextAddr s),
        h.nextAddr + 1⟩ := ⟨_, rfl⟩
  have hh2heap : h2.heap = heap2 := by rw [hh2]
  have hh2bt : h2.binTypes = h.binTypes.set mat.type.toNat (insertBin heap1 h.nextAddr s) := by
    rw [hh2]
  have hh2n : h2.nextAddr = h.nextAddr + 1 := by rw [hh2]
  have hp1 : heap1 h.nextAddr = some (LuaMatBin.new mat) := by rw [hheap1]; simp
  have hp2 : heap2 h.nextAddr = some b2 := by rw [hheap2]; simp
  have hq1 : ∀ q, q ≠ h.nextAddr → heap1 q = h.heap q := by
    intro q hq
    rw [hheap1, Function.update_noteq hq]
  have hq2 : ∀ q, q ≠ h.nextAddr → heap2 q = h.heap q := by
    intro q hq
    rw [hheap2, Function.update_noteq hq, hq1 q hq]
  have hmat1 : ∀ q, q ≠ h.nextAddr → matAt heap1 q = matAt h.heap q := by
    intro q hq
    unfold matAt
    rw [hq1 q hq]
  have hmat2 : ∀ q, matAt heap2 q = matAt heap1 q := by
    intro q
    rw [hheap2]
    exact matAt_update_same_mat hp1 b2 (by rw [hb2]; rfl) q
  have hbefore : (fun a b => binBefore heap2 a b = true) =
      (fun a b => binBefore heap1 a b = true) := by
    funext a b
    rw [binBefore_of_matAt (hmat2 a) (hmat2 b)]
  -- the container of the category after the insertion is strictly increasing
  have hsorted1 : (insertBin heap1 h.nextAddr s).Pairwise
      (fun a b => binBefore heap1 a b = true) := by
    apply sorted_insertBin
    · exact sorted_transfer (hwf.sorted _ s hS) (fun q hq => hmat1 q (hfresh _ s hS q hq))
    · intro q hq
      obtain ⟨_, bq, hbq, _, _⟩ := hwf.resident _ s hS q hq
      have hqne := hfresh _ s hS q hq
      have hcmp : LuaMaterial.Compare bq.toLuaMaterial mat ≠ 0 := by
        intro hc
        exact hnone q hq (binMatches_iff.mpr ⟨bq, hbq, hc⟩)
      have hanti := isCmp_materialCompare.anti mat bq.toLuaMaterial
      rcases lt_trichotomy (LuaMaterial.Compare bq.toLuaMaterial mat) 0 with hc | hc | hc
      · right
        exact binBefore_iff.mpr ⟨bq, LuaMatBin.new mat, by rw [hq1 q hqne, hbq], hp1, hc⟩
      · exact absurd hc hcmp
      · left
        exact binBefore_iff.mpr ⟨LuaMatBin.new mat, bq, hp1, by rw [hq1 q hqne, hbq],
          hanti.mpr hc⟩
  have hset : ∀ (i : Nat) (s2 : LuaMatBinSet), h2.binTypes[i]? = some s2 →
      (i = mat.type.toNat ∧ s2 = insertBin heap1 h.nextAddr s) ∨
      (i ≠ mat.type.toNat ∧ h.binTypes[i]? = some s2) := by
    intro i s2 hs2
    rw [hh2bt, List.getElem?_set] at hs2
    split_ifs at hs2 with e1
    · left
      exact ⟨e1.symm, (Option.some.inj hs2).symm⟩
    · right
      exact ⟨fun e => e1 e.symm, hs2⟩
  have hG2 : h2.GetBins mat.type = some (insertBin heap1 h.nextAddr s) := by
    rw [GetBins_some_iff]
    refine ⟨h0, ?_⟩
    rw [hh2bt, List.getElem?_set]
    simp [hlen]
  have hwf2 : h2.WF := by
    constructor
    · intro i s2 hs2 q hq
      rw [hh2heap, hh2n]
      rcases hset i s2 hs2 with ⟨hi, hs2e⟩ | ⟨hi, hs2e⟩
      · subst hs2e
        rcases mem_insertBin.mp hq with hqp | hqs
        · subst hqp
          refine ⟨Nat.lt_succ_self _, b2, hp2, ?_, ?_⟩
          · rw [hb2, hi, htype]
          · rw [hb2]
        · obtain ⟨hlt, bq, hbq, hty, hcnt⟩ := hwf.resident _ s hS q hqs
          have hqne := hfresh _ s hS q hqs
          refine ⟨Nat.lt_succ_of_lt hlt, bq, ?_, ?_, hcnt⟩
          · rw [hq2 q hqne, hbq]
          · rw [hi]; exact hty
      · obtain ⟨hlt, bq, hbq, hty, hcnt⟩ := hwf.resident i s2 hs2e q hq
        have hqne := hfresh i s2 hs2e q hq
        refine ⟨Nat.lt_succ_of_lt hlt, bq, ?_, hty, hcnt⟩
        rw [hq2 q hqne, hbq]
    · intro i s2 hs2
      rw [hh2heap, hbefore]
      rcases hset i s2 hs2 with ⟨hi, hs2e⟩ | ⟨hi, hs2e⟩
      · subst hs2e
        exact hsorted1
      · exact sorted_transfer (hwf.sorted i s2 hs2e)
          (fun q hq => hmat1 q (hfresh i s2 hs2e q hq))
  refine ⟨h2, ?_, hwf2, ?_, ?_, ?_, ?_, ?_⟩
  · rw [hh2, hheap2, hb2, hheap1]
    simp [LuaMatHandler.GetRef, hG, hfind, LuaMatBin.Ref, LuaMatBin.new]
  · rw [hh2bt]
    simp
  · unfold LuaMatHandler.binsEqualTo
    rw [hG2, hh2heap]
    apply filter_matches_of_sorted
    · rw [hbefore]
      exact hsorted1
    · exact mem_insertBin.mpr (Or.inl rfl)
    · exact binMatches_iff.mpr ⟨b2, hp2, by rw [hb2]; exact isCmp_materialCompare.refl mat⟩
  · unfold LuaMatHandler.binsEqualTo
    rw [hG]
    show List.filter _ _ = []
    rw [List.filter_eq_nil_iff]
    exact hnone
  · simp [LuaMatHandler.refCountAt, hh2heap, hp2, hb2]
  · rw [hh2heap, hp2, hb2]

/-- What `GetRef` does in a well-formed handler for a descriptor of a valid
category: it returns a handle and a well-formed handler in which exactly the
handle's bin is equal to the descriptor, with one more reference than before;
a bin that was already resident is the one returned. -/
theorem GetRef_spec {h : LuaMatHandler} (hwf : h.WF) (mat : LuaMaterial)
    (h0 : 0 ≤ mat.type) (h1 : mat.type < h.binTypes.length) :
    ∃ r h2, h.GetRef mat = some (r, h2) ∧ h2.WF ∧
      h2.binTypes.length = h.binTypes.length ∧
      h2.binsEqualTo mat = [r.bin] ∧
      h2.refCountAt r.bin = some (h.handlesTo mat + 1) ∧
      (∀ p ∈ h.binsEqualTo mat, r.bin = p) := by
  obtain ⟨s, hG, _⟩ := GetBins_eq_some h0 h1
  cases hfind : s.find? (binMatches h.heap mat) with
  | some p =>
    obtain ⟨h2, hget, hwf2, hbt, hfil2, hfil, hrc⟩ := GetRef_found hwf hG hfind
    refine ⟨⟨p⟩, h2, hget, hwf2, by rw [hbt], hfil2, hrc, ?_⟩
    intro q hq
    rw [hfil] at hq
    exact (List.mem_singleton.mp hq).symm
  | none =>
    obtain ⟨h2, hget, hwf2, hlen, hfil2, hfil, hrc, _⟩ := GetRef_new hwf hG hfind
    refine ⟨⟨h.nextAddr⟩, h2, hget, hwf2, hlen, hfil2, ?_, ?_⟩
    · rw [handlesTo_of_nil hfil]
      exact hrc
    · intro q hq
      rw [hfil] at hq
      simp at hq

/-- Descriptors that compare equal are equal to the same resident bins. -/
theorem binsEqualTo_of_Compare_zero (h : LuaMatHandler) {d1 d2 : LuaMaterial}
    (hc : LuaMaterial.Compare d1 d2 = 0) :
    h.binsEqualTo d1 = h.binsEqualTo d2 ∧ h.handlesTo d1 = h.handlesTo d2 := by
  have hty := Compare_zero_type hc
  have hf : binMatches h.heap d1 = binMatches h.heap d2 := by
    funext q
    rw [Bool.eq_iff_iff, binMatches_iff, binMatches_iff]
    constructor
    · rintro ⟨b, hb, hbc⟩
      exact ⟨b, hb, isCmp_materialCompare.trans_eq _ _ _ hbc hc⟩
    · rintro ⟨b, hb, hbc⟩
      exact ⟨b, hb, isCmp_materialCompare.trans_eq _ _ _ hbc
        ((isCmp_materialCompare.symm_zero _ _).mp hc)⟩
  have h1 : h.binsEqualTo d1 = h.binsEqualTo d2 := by
    unfold LuaMatHandler.binsEqualTo
    rw [hty, hf]
  refine ⟨h1, ?_⟩
  unfold LuaMatHandler.handlesTo
  rw [h1]

theorem mem_binsEqualTo {h : LuaMatHandler} {mat : LuaMaterial} {p : Nat}
    (hp : p ∈ h.binsEqualTo mat) :
    ∃ s, h.GetBins mat.type = some s ∧ p ∈ s ∧ binMatches h.heap mat p = true := by
  unfold LuaMatHandler.binsEqualTo at hp
  cases hG : h.GetBins mat.type with
  | none => simp [hG] at hp
  | some s =>
    rw [hG] at hp
    have := List.mem_filter.mp hp
    exact ⟨s, rfl, this.1, this.2⟩

/-- In a well-formed handler the number of handles on a descriptor is 0 when
no equal bin is resident and at least 1 otherwise. -/
theorem handlesTo_nonneg {h : LuaMatHandler} (hwf : h.WF) (mat : LuaMaterial) :
    0 ≤ h.handlesTo mat ∧ (h.binsEqualTo mat = [] ↔ h.handlesTo mat = 0) := by
  cases hfil : h.binsEqualTo mat with
  | nil => simp [handlesTo_of_nil hfil]
  | cons p rest =>
    have hp : p ∈ h.binsEqualTo mat := by rw [hfil]; exact List.mem_cons_self _ _
    obtain ⟨s, hG, hps, _⟩ := mem_binsEqualTo hp
    obtain ⟨_, hS⟩ := GetBins_some_iff.mp hG
    obtain ⟨_, b, hb, _, hcnt⟩ := hwf.resident _ s hS p hps
    have : h.handlesTo mat = b.refCount := by
      simp [LuaMatHandler.handlesTo, hfil, LuaMatHandler.refCountAt, hb]
    rw [this]
    constructor
    · omega
    · simp
      omega

/-! ## The handler: `UnRef` -/

/-- Releasing one of several references: the count drops by one and the bin
stays where it is. -/
theorem UnRef_keep {h : LuaMatHandler} (hwf : h.WF) {mat : LuaMaterial} {p : Nat} {c : Int}
    (hfil : h.binsEqualTo mat = [p]) (hc : h.refCountAt p = some c) (hne : c ≠ 1) :
    ∃ h2, LuaMatBin.UnRef h p = some h2 ∧ h2.WF ∧ h2.binTypes = h.binTypes ∧
      h2.binsEqualTo mat = [p] ∧ h2.refCountAt p = some (c - 1) := by
  have hp : p ∈ h.binsEqualTo mat := by rw [hfil]; exact List.mem_singleton_self p
  obtain ⟨s, hG, hps, _⟩ := mem_binsEqualTo hp
  obtain ⟨_, hS⟩ := GetBins_some_iff.mp hG
  obtain ⟨_, b, hb, _, hcnt⟩ := hwf.resident _ s hS p hps
  have hbc : b.refCount = c := by
    simpa [LuaMatHandler.refCountAt, hb] using hc
  obtain ⟨b2, hb2⟩ : ∃ x : LuaMatBin, x = { b with refCount := b.refCount - 1 } := ⟨_, rfl⟩
  obtain ⟨h2, hh2⟩ : ∃ x : LuaMatHandler,
      x = { h with heap := (Function.update h.heap p (some b2)) } := ⟨_, rfl⟩
  have hheap : h2.heap = Function.update h.heap p (some b2) := by rw [hh2]
  have hbt : h2.binTypes = h.binTypes := by rw [hh2]
  have hn : h2.nextAddr = h.nextAddr := by rw [hh2]
  have hmat : b2.toLuaMaterial = b.toLuaMaterial := by rw [hb2]
  have hrc : b2.refCount = b.refCount - 1 := by rw [hb2]
  have hnz : ¬(b.refCount - 1 = 0) := by omega
  refine ⟨h2, ?_, ?_, hbt, ?_, ?_⟩
  · rw [hh2, hb2]
    simp [LuaMatBin.UnRef, hb, hnz]
  · exact WF_update_refCount hwf hb hheap hmat (by omega) hbt hn
  · rw [binsEqualTo_congr h h2 hbt
      (fun q => by rw [hheap]; exact matAt_update_same_mat hb b2 hmat q) mat]
    exact hfil
  · simp [LuaMatHandler.refCountAt, hheap, hrc, hbc]

/-- Releasing the last reference: the bin is destroyed and its address leaves
the container of its category, which then holds no bin equal to the
descriptor. -/
theorem UnRef_free {h : LuaMatHandler} (hwf : h.WF) {mat : LuaMaterial} {p : Nat}
    (hfil : h.binsEqualTo mat = [p]) (hc : h.refCountAt p = some 1) :
    ∃ h2 s2, LuaMatBin.UnRef h p = some h2 ∧ h2.WF ∧
      h2.binTypes.length = h.binTypes.length ∧
      h2.GetBins mat.type = some s2 ∧ p ∉ s2 ∧
      h2.binsEqualTo mat = [] ∧ h2.heap p = none := by
  have hp : p ∈ h.binsEqualTo mat := by rw [hfil]; exact List.mem_singleton_self p
  obtain ⟨s, hG, hps, hpm⟩ := mem_binsEqualTo hp
  obtain ⟨h0, hS⟩ := GetBins_some_iff.mp hG
  have hlen : mat.type.toNat < h.binTypes.length := (List.getElem?_eq_some_iff.mp hS).1
  have htype : ((mat.type.toNat : Nat) : Int) = mat.type := Int.toNat_of_nonneg h0
  obtain ⟨_, b, hb, hbty, hcnt⟩ := hwf.resident _ s hS p hps
  have hbty2 : b.type = mat.type := by rw [hbty, htype]
  have hbc : b.refCount = 1 := by
    simpa [LuaMatHandler.refCountAt, hb] using hc
  have hnodup : s.Nodup := nodup_of_sorted (hwf.sorted _ s hS)
  obtain ⟨heap3, hheap3⟩ : ∃ x : Nat → Option LuaMatBin,
      x = Function.update (Function.update h.heap p
        (some { b with refCount := b.refCount - 1 })) p none := ⟨_, rfl⟩
  obtain ⟨h2, hh2⟩ : ∃ x : LuaMatHandler,
      x = ⟨heap3, h.binTypes.set mat.type.toNat (s.erase p), h.nextAddr⟩ := ⟨_, rfl⟩
  have hh2heap : h2.heap = heap3 := by rw [hh2]
  have hh2bt : h2.binTypes = h.binTypes.set mat.type.toNat (s.erase p) := by rw [hh2]
  have hh2n : h2.nextAddr = h.nextAddr := by rw [hh2]
  have hp3 : heap3 p = none := by rw [hheap3]; simp
  have hq3 : ∀ q, q ≠ p → heap3 q = h.heap q := by
    intro q hq
    rw [hheap3, Function.update_noteq hq, Function.update_noteq hq]
  have hmat3 : ∀ q, q ≠ p → matAt heap3 q = matAt h.heap q := by
    intro q hq
    unfold matAt
    rw [hq3 q hq]
  have hmem : ∀ q, q ∈ s.erase p ↔ q ≠ p ∧ q ∈ s := fun q => hnodup.mem_erase_iff
  have hset : ∀ (i : Nat) (s2 : LuaMatBinSet), h2.binTypes[i]? = some s2 →
      (i = mat.type.toNat ∧ s2 = s.erase p) ∨
      (i ≠ mat.type.toNat ∧ h.binTypes[i]? = some s2) := by
    intro i s2 hs2
    rw [hh2bt, List.getElem?_set] at hs2
    split_ifs at hs2 with e1
    · left
      exact ⟨e1.symm, (Option.some.inj hs2).symm⟩
    · right
      exact ⟨fun e => e1 e.symm, hs2⟩
  -- an address held by another category is not `p`
  have hother : ∀ (i : Nat) (s2 : LuaMatBinSet), i ≠ mat.type.toNat →
      h.binTypes[i]? = some s2 → ∀ q ∈ s2, q ≠ p := by
    intro i s2 hi hs2 q hq hqp
    subst hqp
    obtain ⟨_, bq, hbq, hty, _⟩ := hwf.resident i s2 hs2 q hq
    rw [hb] at hbq
    cases hbq
    rw [hbty] at hty
    exact hi (Int.ofNat_inj.mp hty).symm
  have hG2 : h2.GetBins mat.type = some (s.erase p) := by
    rw [GetBins_some_iff]
    refine ⟨h0, ?_⟩
    rw [hh2bt, List.getElem?_set]
    simp [hlen]
  have hwf2 : h2.WF := by
    constructor
    · intro i s2 hs2 q hq
      rw [hh2heap, hh2n]
      rcases hset i s2 hs2 with ⟨hi, hs2e⟩ | ⟨hi, hs2e⟩
      · subst hs2e
        obtain ⟨hqne, hqs⟩ := (hmem q).mp hq
        obtain ⟨hlt, bq, hbq, hty, hcq⟩ := hwf.resident _ s hS q hqs
        exact ⟨hlt, bq, by rw [hq3 q hqne, hbq], by rw [hi]; exact hty, hcq⟩
      · obtain ⟨hlt, bq, hbq, hty, hcq⟩ := hwf.resident i s2 hs2e q hq
        have hqne := hother i s2 hi hs2e q hq
        exact ⟨hlt, bq, by rw [hq3 q hqne, hbq], hty, hcq⟩
    · intro i s2 hs2
      rw [hh2heap]
      rcases hset i s2 hs2 with ⟨hi, hs2e⟩ | ⟨hi, hs2e⟩
      · subst hs2e
        exact sorted_transfer ((hwf.sorted _ s hS).sublist (List.erase_sublist p s))
          (fun q hq => hmat3 q ((hmem q).mp hq).1)
      · exact sorted_transfer (hwf.sorted i s2 hs2e)
          (fun q hq => hmat3 q (hother i s2 hi hs2e q hq))
  refine ⟨h2, s.erase p, ?_, hwf2, ?_, hG2, ?_, ?_, ?_⟩
  · have hG3 : ∀ (hp : Nat → Option LuaMatBin) (n : Nat),
        LuaMatHandler.GetBins ⟨hp, h.binTypes, n⟩ mat.type = some s := fun _ _ => hG
    rw [hh2, hheap3]
    simp [LuaMatBin.UnRef, hb, hbc, LuaMatHandler.FreeBin, hbty2, hG3]
  · rw [hh2bt]
    simp
  · intro hin
    exact ((hmem p).mp hin).1 rfl
  · unfold LuaMatHandler.binsEqualTo
    rw [hG2, hh2heap]
    show List.filter _ _ = []
    rw [List.filter_eq_nil_iff]
    intro q hq hqm
    obtain ⟨hqne, hqs⟩ := (hmem q).mp hq
    have hqm2 : binMatches h.heap mat q = true := by
      rw [← hqm]
      exact (binMatches_of_matAt (hmat3 q hqne) mat).symm
    have hqf : q ∈ h.binsEqualTo mat := by
      unfold LuaMatHandler.binsEqualTo
      rw [hG]
      exact List.mem_filter.mpr ⟨hqs, hqm2⟩
    rw [hfil] at hqf
    exact hqne (List.mem_singleton.mp hqf)
  · rw [hh2heap, hp3]

/-! ## The invariant holds in every reachable state -/

/-- The handler that holds no bin satisfies the invariant. -/
theorem WF_empty (count : Nat) : (LuaMatHandler.empty count).WF := by
  have key : ∀ (i : Nat) (s : LuaMatBinSet),
      (LuaMatHandler.empty count).binTypes[i]? = some s → s = [] := by
    intro i s hs
    simp only [LuaMatHandler.empty, List.getElem?_replicate] at hs
    split_ifs at hs
    exact (Option.some.inj hs).symm
  constructor
  · intro i s hs p hp
    rw [key i s hs] at hp
    simp at hp
  · intro i s hs
    rw [key i s hs]
    exact List.Pairwise.nil

/-- Every successful `GetRef` keeps the invariant. -/
theorem GetRef_preserves_WF {h : LuaMatHandler} (hwf : h.WF) {mat : LuaMaterial}
    {r : LuaMatRef} {h2 : LuaMatHandler} (hget : h.GetRef mat = some (r, h2)) : h2.WF := by
  cases hG : h.GetBins mat.type with
  | none => simp [LuaMatHandler.GetRef, hG] at hget
  | some s =>
    obtain ⟨h0, hS⟩ := GetBins_some_iff.mp hG
    have hlen : mat.type.toNat < h.binTypes.length := (List.getElem?_eq_some_iff.mp hS).1
    obtain ⟨r3, h3, hget3, hwf3, _⟩ := GetRef_spec hwf mat h0 (by omega)
    rw [hget] at hget3
    cases hget3
    exact hwf3

/-- Releasing a handle on a resident bin succeeds and keeps the invariant. -/
theorem UnRef_preserves_WF {h : LuaMatHandler} (hwf : h.WF) {i : Nat} {s : LuaMatBinSet}
    (hs : h.binTypes[i]? = some s) {p : Nat} (hp : p ∈ s) :
    ∃ h2, LuaMatBin.UnRef h p = some h2 ∧ h2.WF := by
  obtain ⟨_, b, hb, hty, hcnt⟩ := hwf.resident i s hs p hp
  have hG : h.GetBins b.toLuaMaterial.type = some s := by
    rw [GetBins_some_iff]
    have e : b.toLuaMaterial.type = (i : Int) := hty
    rw [e]
    exact ⟨Int.ofNat_nonneg i, by simpa using hs⟩
  have hm : binMatches h.heap b.toLuaMaterial p = true :=
    binMatches_iff.mpr ⟨b, hb, isCmp_materialCompare.refl _⟩
  have hfil : h.binsEqualTo b.toLuaMaterial = [p] := by
    unfold LuaMatHandler.binsEqualTo
    rw [hG]
    exact filter_matches_of_sorted (hwf.sorted i s hs) hp hm
  have hrc : h.refCountAt p = some b.refCount := by
    simp [LuaMatHandler.refCountAt, hb]
  by_cases h1 : b.refCount = 1
  · rw [h1] at hrc
    obtain ⟨h2, _, hu, hwf2, _⟩ := UnRef_free hwf hfil hrc
    exact ⟨h2, hu, hwf2⟩
  · obtain ⟨h2, hu, hwf2, _⟩ := UnRef_keep hwf hfil hrc h1
    exact ⟨h2, hu, hwf2⟩

/-! ## The bin `GetRef` creates (C3) -/

/-- C3: when the container of the descriptor's category holds no bin equal to
it, the bin `GetRef` constructs from the descriptor has `refCount = 1`, a copy
of the descriptor's fields, and empty unit and feature lists; it sits at the
address of the handle returned and in the container of its category. -/
theorem GetRef_new_bin_fields (h : LuaMatHandler) (mat : LuaMaterial)
    (h0 : 0 ≤ mat.type) (h1 : mat.type < h.binTypes.length)
    (hnone : h.binsEqualTo mat = []) :
    ∃ r h2 bin s2,
      h.GetRef mat = some (r, h2) ∧ r.bin = h.nextAddr ∧
      h2.heap r.bin = some bin ∧
      bin.refCount = 1 ∧ bin.toLuaMaterial = mat ∧
      bin.GetUnits = [] ∧ bin.GetFeatures = [] ∧
      h2.GetBins mat.type = some s2 ∧ r.bin ∈ s2 := by
  obtain ⟨s, hG, hS⟩ := GetBins_eq_some h0 h1
  have hlen : mat.type.toNat < h.binTypes.length := (List.getElem?_eq_some_iff.mp hS).1
  have hfind : s.find? (binMatches h.heap mat) = none := by
    rw [List.find?_eq_none]
    have hf : s.filter (binMatches h.heap mat) = [] := by
      simpa [LuaMatHandler.binsEqualTo, hG] using hnone
    exact List.filter_eq_nil_iff.mp hf
  refine ⟨⟨h.nextAddr⟩,
    ⟨Function.update (Function.update h.heap h.nextAddr (some (LuaMatBin.new mat))) h.nextAddr
        (some { toLuaMaterial := mat, refCount := 1, units := [], features := [] }),
      h.binTypes.set mat.type.toNat
        (insertBin (Function.update h.heap h.nextAddr (some (LuaMatBin.new mat))) h.nextAddr s),
      h.nextAddr + 1⟩,
    { toLuaMaterial := mat, refCount := 1, units := [], features := [] },
    insertBin (Function.update h.heap h.nextAddr (some (LuaMatBin.new mat))) h.nextAddr s,
    ?_, rfl, ?_, rfl, rfl, rfl, rfl, ?_, mem_insertBin.mpr (Or.inl rfl)⟩
  · simp [LuaMatHandler.GetRef, hG, hfind, LuaMatBin.Ref, LuaMatBin.new]
  · simp
  · rw [GetBins_some_iff]
    refine ⟨h0, ?_⟩
    show (h.binTypes.set _ _)[_]? = _
    rw [List.getElem?_set]
    simp [hlen]

/-- Witness for C3: the descriptor D1 interned in the empty handler of five
categories. -/
theorem GetRef_new_bin_fields_witness :
    (LuaMatHandler.empty 5).binsEqualTo sampleD1 = [] ∧
    ∃ r h2 bin s2,
      (LuaMatHandler.empty 5).GetRef sampleD1 = some (r, h2) ∧
      r.bin = (LuaMatHandler.empty 5).nextAddr ∧
      h2.heap r.bin = some bin ∧
      bin.refCount = 1 ∧ bin.toLuaMaterial = sampleD1 ∧
      bin.GetUnits = [] ∧ bin.GetFeatures = [] ∧
      h2.GetBins sampleD1.type = some s2 ∧ r.bin ∈ s2 :=
  ⟨by decide,
    GetRef_new_bin_fields (LuaMatHandler.empty 5) sampleD1 (by decide) (by decide) (by decide)⟩

/-! ## Interning (C2) -/

/-- C2, as found false: in the handler reached from the empty one by an
earlier `GetRef(D1)`, whose handle is still outstanding, the first
`GetRef(d1)` of the sequence, with `d1 = D1`, leaves the bin with
`refCount = 2`, not 1; and
for the default-constructed descriptor, whose category is -1, `GetRef`
returns no handle at all. -/
theorem GetRef_on_resident_bin_counts_two :
    LuaMaterial.Compare sampleD1 sampleD2 = 0 ∧
    (match (LuaMatHandler.empty 5).GetRef sampleD1 with
      | some (_, handler) =>
        match handler.GetRef sampleD1 with
        | some (r, handler2) => handler2.refCountAt r.bin
        | none => none
      | none => none) = some 2 ∧
    LuaMaterial.Compare LuaMaterial.new LuaMaterial.new = 0 ∧
    ((LuaMatHandler.empty 5).GetRef LuaMaterial.new).isNone = true := by
  decide

/-- C2, amended: in a well-formed handler, for descriptors `d1`, `d2` of a
valid category with `Compare(d1,d2) == 0`, `GetRef(d1)` followed by
`GetRef(d2)` return handles to the same bin, the category's container holds
exactly one bin equal to `d1`, and with `k` handles outstanding on it before
(`k = 0` exactly when no equal bin is resident) its `refCount` is `k + 1` after
the first `GetRef`, `k + 2` after the second, `k + 1` after one `UnRef`; after
the second `UnRef` it is `k` again, and when `k = 0` the bin is absent from
`GetBins(category)`. -/
theorem GetRef_interning (h : LuaMatHandler) (d1 d2 : LuaMaterial) (hwf : h.WF)
    (h0 : 0 ≤ d1.type) (h1 : d1.type < h.binTypes.length)
    (hc : LuaMaterial.Compare d1 d2 = 0) :
    ∃ r hA hB hC hD sD,
      h.GetRef d1 = some (r, hA) ∧ hA.GetRef d2 = some (r, hB) ∧
      hA.binsEqualTo d1 = [r.bin] ∧ hB.binsEqualTo d1 = [r.bin] ∧
      0 ≤ h.handlesTo d1 ∧ (h.binsEqualTo d1 = [] ↔ h.handlesTo d1 = 0) ∧
      hA.refCountAt r.bin = some (h.handlesTo d1 + 1) ∧
      hB.refCountAt r.bin = some (h.handlesTo d1 + 2) ∧
      LuaMatBin.UnRef hB r.bin = some hC ∧
      hC.refCountAt r.bin = some (h.handlesTo d1 + 1) ∧
      hC.binsEqualTo d1 = [r.bin] ∧
      LuaMatBin.UnRef hC r.bin = some hD ∧
      hD.GetBins d1.type = some sD ∧
      (h.handlesTo d1 = 0 → r.bin ∉ sD ∧ hD.binsEqualTo d1 = []) ∧
      (h.handlesTo d1 ≠ 0 →
        hD.refCountAt r.bin = some (h.handlesTo d1) ∧ hD.binsEqualTo d1 = [r.bin]) := by
  obtain ⟨hk0, hkiff⟩ := handlesTo_nonneg hwf d1
  have hty := Compare_zero_type hc
  obtain ⟨r, hA, hgA, hwfA, hlenA, hfilA, hrcA, _⟩ := GetRef_spec hwf d1 h0 h1
  obtain ⟨rB, hB, hgB, hwfB, _, hfilB, hrcB, hresB⟩ :=
    GetRef_spec hwfA d2 (hty ▸ h0) (by rw [← hty, hlenA]; exact h1)
  obtain ⟨eA, eAk⟩ := binsEqualTo_of_Compare_zero hA hc
  obtain ⟨eB, _⟩ := binsEqualTo_of_Compare_zero hB hc
  have hrB : rB = r := by
    have hbin : rB.bin = r.bin := hresB r.bin (by rw [← eA, hfilA]; exact List.mem_singleton_self _)
    cases rB
    cases r
    simpa using hbin
  subst hrB
  have hkA : hA.handlesTo d2 = h.handlesTo d1 + 1 := by
    rw [← eAk]
    exact handlesTo_of_singleton hfilA hrcA
  have hfilB1 : hB.binsEqualTo d1 = [rB.bin] := by rw [eB]; exact hfilB
  have hrcB2 : hB.refCountAt rB.bin = some (h.handlesTo d1 + 2) := by
    rw [hrcB, hkA]
    congr 1
    omega
  obtain ⟨hC, huC, hwfC, _, hfilC, hrcC⟩ := UnRef_keep hwfB hfilB1 hrcB2 (by omega)
  have hrcC1 : hC.refCountAt rB.bin = some (h.handlesTo d1 + 1) := by
    rw [hrcC]
    congr 1
    omega
  by_cases hk : h.handlesTo d1 = 0
  · have hone : hC.refCountAt rB.bin = some 1 := by rw [hrcC1, hk]; rfl
    obtain ⟨hD, sD, huD, _, _, hGD, hnot, hfilD, _⟩ := UnRef_free hwfC hfilC hone
    exact ⟨rB, hA, hB, hC, hD, sD, hgA, hgB, hfilA, hfilB1, hk0, hkiff, hrcA, hrcB2, huC,
      hrcC1, hfilC, huD, hGD, fun _ => ⟨hnot, hfilD⟩, fun hne => absurd hk hne⟩
  · obtain ⟨hD, huD, _, _, hfilD, hrcD⟩ := UnRef_keep hwfC hfilC hrcC1 (by omega)
    have hmemD : rB.bin ∈ hD.binsEqualTo d1 := by rw [hfilD]; exact List.mem_singleton_self _
    obtain ⟨sD, hGD, _, _⟩ := mem_binsEqualTo hmemD
    have hrcD1 : hD.refCountAt rB.bin = some (h.handlesTo d1) := by
      rw [hrcD]
      congr 1
      omega
    exact ⟨rB, hA, hB, hC, hD, sD, hgA, hgB, hfilA, hfilB1, hk0, hkiff, hrcA, hrcB2, huC,
      hrcC1, hfilC, huD, hGD, fun hz => absurd hz hk, fun _ => ⟨hrcD1, hfilD⟩⟩

/-- Witness for C2: the scenario of the specification, D1 then D2 interned in
the empty handler of five categories, where no handle is outstanding. -/
theorem GetRef_interning_witness :
    (LuaMatHandler.empty 5).handlesTo sampleD1 = 0 ∧
    ∃ r hA hB hC hD sD,
      (LuaMatHandler.empty 5).GetRef sampleD1 = some (r, hA) ∧
      hA.GetRef sampleD2 = some (r, hB) ∧
      hA.binsEqualTo sampleD1 = [r.bin] ∧ hB.binsEqualTo sampleD1 = [r.bin] ∧
      0 ≤ (LuaMatHandler.empty 5).handlesTo sampleD1 ∧
      ((LuaMatHandler.empty 5).binsEqualTo sampleD1 = [] ↔
        (LuaMatHandler.empty 5).handlesTo sampleD1 = 0) ∧
      hA.refCountAt r.bin = some ((LuaMatHandler.empty 5).handlesTo sampleD1 + 1) ∧
      hB.refCountAt r.bin = some ((LuaMatHandler.empty 5).handlesTo sampleD1 + 2) ∧
      LuaMatBin.UnRef hB r.bin = some hC ∧
      hC.refCountAt r.bin = some ((LuaMatHandler.empty 5).handlesTo sampleD1 + 1) ∧
      hC.binsEqualTo sampleD1 = [r.bin] ∧
      LuaMatBin.UnRef hC r.bin = some hD ∧
      hD.GetBins sampleD1.type = some sD ∧
      ((LuaMatHandler.empty 5).handlesTo sampleD1 = 0 →
        r.bin ∉ sD ∧ hD.binsEqualTo sampleD1 = []) ∧
      ((LuaMatHandler.empty 5).handlesTo sampleD1 ≠ 0 →
        hD.refCountAt r.bin = some ((LuaMatHandler.empty 5).handlesTo sampleD1) ∧
        hD.binsEqualTo sampleD1 = [r.bin]) :=
  ⟨by decide,
    GetRef_interning (LuaMatHandler.empty 5) sampleD1 sampleD2 (WF_empty 5)
      (by decide) (by decide) (by decide)⟩

end Spring
